import Mathlib

/-!
Formal model of the Radiverse DICOM volume pipeline (`radiverse/utils.py`).

Modelling conventions for the shallow embedding:

* numpy `astype(np.int16)` and int16 arithmetic are modelled by reduction
  modulo `2^16` into the signed range `[-32768, 32768)` (`toInt16`);
* IEEE float64 arithmetic is modelled by exact rational arithmetic (every
  quantity appearing in the claims is exactly representable);
* numpy's C-style float-to-integer cast is modelled as truncation toward
  zero (`ratTowardZero`) followed by the int16 wrap where the target is an
  int16 array;
* the float literal `1e-8` of `apply_windowing` is modelled as `1/10^8`;
* the filesystem is abstracted away: the directory branch of
  `Dicom._load_data` receives the list of decoded datasets produced by
  `pydicom.dcmread` over the globbed `*.dcm` files, and sorting with
  `key=float(x.ImagePositionPatient[2]), reverse=True` is modelled by a
  stable insertion sort with the relation "z-component is not larger".
-/

namespace Radiverse

/-- Reinterpretation of an arbitrary integer as a signed 16-bit value:
reduction modulo `2^16` into `[-32768, 32768)`.  This models numpy's
`astype(np.int16)` narrowing and the wrap-around of int16 arithmetic. -/
def toInt16 (n : ℤ) : ℤ := (n + 32768) % 65536 - 32768

/-- C-style truncation of a rational toward zero, modelling numpy's
float-to-integer casts. -/
def ratTowardZero (q : ℚ) : ℤ := if 0 ≤ q then ⌊q⌋ else ⌈q⌉

/-- One decoded DICOM dataset, holding exactly the attributes the core
pipeline reads: the raw pixel grid, the rescale calibration pair and the
z-component of `ImagePositionPatient`. -/
structure Dataset where
  pixelArray : List (List ℤ)
  rescaleSlope : ℚ
  rescaleIntercept : ℚ
  imagePositionZ : ℚ
deriving DecidableEq

/-- Directory branch of `Dicom._load_data`: the decoded datasets are sorted
by descending z-component of `ImagePositionPatient` (`reverse=True` on the
float key).  Python's stable `list.sort` is modelled by a stable insertion
sort. -/
def loadDataDir (files : List Dataset) : List Dataset :=
  files.insertionSort (fun a b => b.imagePositionZ ≤ a.imagePositionZ)

/-- Errors surfaced while assembling the volume.  `stackEmpty` models the
`ValueError` numpy's `np.stack` raises on an empty list, `shapeMismatch`
the one it raises on ragged input. -/
inductive LoadError where
  | stackEmpty
  | shapeMismatch
deriving DecidableEq

/-- Shape of a 2-D pixel grid, as numpy sees it for stacking purposes. -/
def gridShape (g : List (List ℤ)) : ℕ × List ℕ := (g.length, g.map List.length)

/-- Model of `Dicom._get_pixel_data`: `np.stack([s.pixel_array for s in
self.data])`.  Stacking an empty list or differently shaped grids raises. -/
def getPixelData (data : List Dataset) : Except LoadError (List (List (List ℤ))) :=
  match data with
  | [] => Except.error LoadError.stackEmpty
  | d :: rest =>
      if rest.all (fun s => decide (gridShape s.pixelArray = gridShape d.pixelArray)) then
        Except.ok ((d :: rest).map Dataset.pixelArray)
      else Except.error LoadError.shapeMismatch

/-- Padding correction inside `Dicom._get_hu_images`: the volume is first
narrowed with `astype(np.int16)`, then `images[images == -2048] = 0` zeroes
every element whose int16 value is the sentinel. -/
def padCorrect (raw : ℤ) : ℤ := if toInt16 raw = -2048 then 0 else toInt16 raw

/-- Per-element calibration of `Dicom._get_hu_images` for one slice: after
the padding correction, `if slope != 1` the element is replaced by the
float64 product `slope * element` cast back into the int16 array, and then
`images[index] += np.int16(intercept)` adds the separately narrowed
intercept with int16 wrap-around. -/
def huSliceElem (slope intercept : ℚ) (raw : ℤ) : ℤ :=
  toInt16
    ((if slope = 1 then padCorrect raw
      else toInt16 (ratTowardZero (slope * (padCorrect raw : ℚ)))) +
      toInt16 (ratTowardZero intercept))

/-- Model of `Dicom._get_hu_images` over the whole volume: each slice of
the stacked pixel data is calibrated with its own dataset's slope and
intercept. -/
def getHuImages (data : List Dataset) : List (List (List ℤ)) :=
  data.map fun s =>
    s.pixelArray.map fun row => row.map (huSliceElem s.rescaleSlope s.rescaleIntercept)

/-- The denominator guard `1e-8` of `apply_windowing`. -/
def windowEps : ℚ := 1 / 100000000

/-- Per-element form of `apply_windowing`: `np.clip((image - min_val) /
(max_val - min_val + 1e-8) * 255, 0, 255).astype(np.uint8)`. -/
def applyWindowingElem (minVal maxVal : ℚ) (v : ℤ) : ℤ :=
  ratTowardZero
    (min (max (((v : ℚ) - minVal) / (maxVal - minVal + windowEps) * 255) 0) 255)

/-- Model of `apply_windowing` on a 3-D volume. -/
def apply_windowing (image : List (List (List ℤ))) (minVal maxVal : ℚ) :
    List (List (List ℤ)) :=
  image.map fun plane => plane.map fun row => row.map (applyWindowingElem minVal maxVal)

/-- The `min_val` computed by `Dicom.set_window`: `(2 * center - width) / 2.0 + 0.5`. -/
def setWindowMinVal (center width : ℚ) : ℚ := (2 * center - width) / 2 + 1 / 2

/-- The `max_val` computed by `Dicom.set_window`: `(2 * center + width) / 2.0 + 0.5`. -/
def setWindowMaxVal (center width : ℚ) : ℚ := (2 * center + width) / 2 + 1 / 2

/-- State of a `Dicom` object after `__init__`: the decoded datasets, the
stacked raw pixel volume and the `hu_images` attribute. -/
structure Dicom where
  data : List Dataset
  pixel_data : List (List (List ℤ))
  hu_images : List (List (List ℤ))
deriving DecidableEq

/-- Model of `Dicom.set_window`: it rebinds `self.hu_images` to
`apply_windowing(self.hu_images, min_val, max_val)`. -/
def Dicom.set_window (st : Dicom) (width center : ℚ) : Dicom :=
  { st with
    hu_images :=
      apply_windowing st.hu_images (setWindowMinVal center width)
        (setWindowMaxVal center width) }

/-- Model of `Dicom.__init__` for a directory path: load and sort the
datasets, stack the pixel data, convert to HU. -/
def dicomInitDir (files : List Dataset) : Except LoadError Dicom :=
  match getPixelData (loadDataDir files) with
  | Except.error e => Except.error e
  | Except.ok pix =>
      Except.ok
        { data := loadDataDir files, pixel_data := pix,
          hu_images := getHuImages (loadDataDir files) }

/-- Modelled from the spec: the calibration rule the specification states
for `slope != 1`, namely `slope * raw + intercept` "narrowed once to the
integer storage type by truncation toward zero" — a single truncation of
the full expression, applied to the padding-corrected element.  This
definition follows the spec's words and is compared against `huSliceElem`,
which embeds the source. -/
def huCalibrateSingleNarrow (slope intercept : ℚ) (raw : ℤ) : ℤ :=
  ratTowardZero (slope * (padCorrect raw : ℚ) + intercept)

/-! ## Helper lemmas -/

theorem toInt16_of_bounds {n : ℤ} (h1 : -32768 ≤ n) (h2 : n < 32768) :
    toInt16 n = n := by
  unfold toInt16
  omega

theorem toInt16_bounds (n : ℤ) : -32768 ≤ toInt16 n ∧ toInt16 n < 32768 := by
  unfold toInt16
  omega

theorem toInt16_emod (n : ℤ) : toInt16 n % 65536 = n % 65536 := by
  unfold toInt16
  omega

theorem ratTowardZero_intCast (n : ℤ) : ratTowardZero (n : ℚ) = n := by
  unfold ratTowardZero
  split <;> simp

theorem ratTowardZero_mono {p q : ℚ} (h : p ≤ q) :
    ratTowardZero p ≤ ratTowardZero q := by
  unfold ratTowardZero
  split <;> split
  · exact Int.floor_le_floor h
  · exact absurd (le_trans (by assumption) h) (by assumption)
  · exact le_trans (Int.ceil_le.mpr (by exact_mod_cast le_of_not_le (by assumption)))
      (Int.floor_nonneg.mpr (by assumption))
  · exact Int.ceil_le_ceil h

theorem ratTowardZero_nonneg {q : ℚ} (h : 0 ≤ q) : 0 ≤ ratTowardZero q := by
  unfold ratTowardZero
  rw [if_pos h]
  exact Int.le_floor.mpr (by exact_mod_cast h)

theorem ratTowardZero_le {q : ℚ} {b : ℤ} (h : q ≤ (b : ℚ)) (h0 : 0 ≤ q) :
    ratTowardZero q ≤ b := by
  unfold ratTowardZero
  rw [if_pos h0]
  exact (Int.floor_le_floor h).trans_eq (Int.floor_intCast b)

theorem applyWindowingElem_range (minVal maxVal : ℚ) (v : ℤ) :
    0 ≤ applyWindowingElem minVal maxVal v ∧ applyWindowingElem minVal maxVal v ≤ 255 := by
  unfold applyWindowingElem
  have hlo : (0 : ℚ) ≤ min (max (((v : ℚ) - minVal) / (maxVal - minVal + windowEps) * 255) 0) 255 :=
    le_min (le_max_right _ _) (by norm_num)
  constructor
  · exact ratTowardZero_nonneg hlo
  · exact ratTowardZero_le (by exact_mod_cast min_le_right _ _) hlo

theorem padCorrect_of_bounds {raw : ℤ} (h1 : -32768 ≤ raw) (h2 : raw < 32768) :
    padCorrect raw = if raw = -2048 then 0 else raw := by
  unfold padCorrect
  rw [toInt16_of_bounds h1 h2]

/-! ## Claims about the HU conversion -/

/-- C2: for every raw volume element equal to the sentinel `-2048`, the HU
conversion produces exactly the slice's intercept value: the element is
reset to `0` before the slope/intercept calibration is applied (for any
intercept that is an integer in the int16 range, as DICOM rescale
intercepts are). -/
theorem claim2_sentinel_maps_to_intercept (slope intercept : ℚ) (n : ℤ)
    (hint : intercept = (n : ℚ)) (h1 : -32768 ≤ n) (h2 : n < 32768) :
    huSliceElem slope intercept (-2048) = n := by
  subst hint
  unfold huSliceElem
  have hpad : padCorrect (-2048) = 0 := by decide
  rw [hpad, ratTowardZero_intCast, toInt16_of_bounds h1 h2]
  split
  · rw [zero_add]
    exact toInt16_of_bounds h1 h2
  · rw [Int.cast_zero, mul_zero]
    have h0 : ratTowardZero (0 : ℚ) = 0 := by simpa using ratTowardZero_intCast 0
    rw [h0]
    have ht : toInt16 0 = 0 := by decide
    rw [ht, zero_add]
    exact toInt16_of_bounds h1 h2

/-- Witness for C2 at `slope = 3`, `intercept = -1024`. -/
theorem claim2_witness : huSliceElem 3 ((-1024 : ℤ) : ℚ) (-2048) = -1024 :=
  claim2_sentinel_maps_to_intercept 3 _ (-1024) rfl (by decide) (by decide)

/-- C3: for a slice with `rescaleSlope = 1`, each calibrated HU element is
the padding-corrected raw element plus the slice's intercept, exactly, on
the integer-only path (raw and intercept in the int16 range, no overflow
of the sum). -/
theorem claim3_slope_one_additive (intercept : ℚ) (n raw : ℤ)
    (hint : intercept = (n : ℚ))
    (hraw1 : -32768 ≤ raw) (hraw2 : raw < 32768)
    (h1 : -32768 ≤ n) (h2 : n < 32768)
    (h5 : -32768 ≤ (if raw = -2048 then 0 else raw) + n)
    (h6 : (if raw = -2048 then 0 else raw) + n < 32768) :
    huSliceElem 1 intercept raw = (if raw = -2048 then 0 else raw) + n := by
  subst hint
  unfold huSliceElem
  rw [if_pos rfl, padCorrect_of_bounds hraw1 hraw2, ratTowardZero_intCast,
    toInt16_of_bounds h1 h2]
  exact toInt16_of_bounds h5 h6

/-- Witness for C3: the spec's scenario slice with raw values
`[-2048, 0, 100]`, `slope = 1`, `intercept = -1024` calibrates to
`[-1024, -1024, -924]`. -/
theorem claim3_witness :
    huSliceElem 1 ((-1024 : ℤ) : ℚ) (-2048) = -1024 ∧
    huSliceElem 1 ((-1024 : ℤ) : ℚ) 0 = -1024 ∧
    huSliceElem 1 ((-1024 : ℤ) : ℚ) 100 = -924 := by
  refine ⟨?_, ?_, ?_⟩
  · rw [claim3_slope_one_additive _ (-1024) (-2048) rfl (by decide) (by decide)
      (by decide) (by decide) (by decide) (by decide)]
    decide
  · rw [claim3_slope_one_additive _ (-1024) 0 rfl (by decide) (by decide)
      (by decide) (by decide) (by decide) (by decide)]
    decide
  · rw [claim3_slope_one_additive _ (-1024) 100 rfl (by decide) (by decide)
      (by decide) (by decide) (by decide) (by decide)]
    decide

/-- Counterexample to C4: for `slope = 1/2`, `intercept = 10`, raw element
`-3`, the code computes `trunc(-1.5) + 10 = -1 + 10 = 9`, while a single
truncation of the full expression `slope * raw + intercept` would give
`trunc(8.5) = 8`; the two disagree, so the claimed single narrowing of the
full expression is not what the code does. -/
theorem claim4_counterexample :
    huSliceElem (1/2) 10 (-3) = 9 ∧ huCalibrateSingleNarrow (1/2) 10 (-3) = 8 := by
  constructor <;> with_unfolding_all rfl

/-- C4 as amended: for `slope ≠ 1` the code narrows twice, not once — the
float64 product `slope * raw` is truncated toward zero to the int16
storage type on assignment, and the separately narrowed `np.int16
(intercept)` is then added in wrapping 16-bit arithmetic; absent overflow
the element equals `trunc(slope * raw) + intercept`. -/
theorem claim4_amended_two_narrowings (slope intercept : ℚ) (n raw x : ℤ)
    (hs : ¬ slope = 1) (hint : intercept = (n : ℚ))
    (hx : ratTowardZero (slope * (padCorrect raw : ℚ)) = x)
    (h1 : -32768 ≤ n) (h2 : n < 32768)
    (h3 : -32768 ≤ x) (h4 : x < 32768)
    (h5 : -32768 ≤ x + n) (h6 : x + n < 32768) :
    huSliceElem slope intercept raw = x + n := by
  subst hint
  unfold huSliceElem
  rw [if_neg hs, hx, ratTowardZero_intCast, toInt16_of_bounds h1 h2,
    toInt16_of_bounds h3 h4]
  exact toInt16_of_bounds h5 h6

/-- Witness for the amended C4 at `slope = 1/2`, `intercept = 10`,
raw element `-3`: the result is `trunc(-1.5) + 10 = 9`. -/
theorem claim4_witness : huSliceElem (1/2) ((10 : ℤ) : ℚ) (-3) = -1 + 10 :=
  claim4_amended_two_narrowings (1/2) _ 10 (-3) (-1) (by norm_num) rfl
    (by with_unfolding_all rfl) (by decide) (by decide) (by decide) (by decide)
    (by decide) (by decide)

/-- C10: the conversion narrows the raw volume to int16 before the padding
test — an element is zeroed exactly when its value modulo `2^16` is
`63488`, the two's-complement encoding of `-2048` — and the intercept
addition wraps modulo `2^16`: the result is congruent to
`padCorrect raw + intercept` modulo `2^16` and lies in `[-32768, 32768)`. -/
theorem claim10_int16_wraparound (raw n : ℤ) (intercept : ℚ)
    (hint : intercept = (n : ℚ)) (h1 : -32768 ≤ n) (h2 : n < 32768) :
    ((toInt16 raw = -2048) ↔ raw % 65536 = 63488) ∧
    huSliceElem 1 intercept raw % 65536 = (padCorrect raw + n) % 65536 ∧
    -32768 ≤ huSliceElem 1 intercept raw ∧ huSliceElem 1 intercept raw < 32768 := by
  subst hint
  have hval : huSliceElem 1 (n : ℚ) raw = toInt16 (padCorrect raw + n) := by
    unfold huSliceElem
    rw [if_pos rfl, ratTowardZero_intCast, toInt16_of_bounds h1 h2]
  refine ⟨?_, ?_, ?_, ?_⟩
  · unfold toInt16
    omega
  · rw [hval]
    exact toInt16_emod _
  · rw [hval]
    exact (toInt16_bounds _).1
  · rw [hval]
    exact (toInt16_bounds _).2

/-- Witness for C10 at `raw = 32000`, `intercept = 1000`: the padding test
is negative on both sides of the equivalence, and the int16 addition
overflows and wraps to `-32536`. -/
theorem claim10_witness :
    (((toInt16 32000 = -2048) ↔ (32000 : ℤ) % 65536 = 63488) ∧
      huSliceElem 1 ((1000 : ℤ) : ℚ) 32000 % 65536 = (padCorrect 32000 + 1000) % 65536 ∧
      -32768 ≤ huSliceElem 1 ((1000 : ℤ) : ℚ) 32000 ∧
      huSliceElem 1 ((1000 : ℤ) : ℚ) 32000 < 32768) ∧
    huSliceElem 1 ((1000 : ℤ) : ℚ) 32000 = -32536 :=
  ⟨claim10_int16_wraparound 32000 1000 _ rfl (by decide) (by decide),
    by with_unfolding_all rfl⟩

/-! ## Claims about loading, windowing and the `set_window` state change -/

/-- Counterexample to C1: `set_window` does not leave the stored HU volume
unchanged — it rebinds `hu_images` to the windowed output — and a second
`set_window` call is therefore not the pure windowing function of the
original HU volume: starting from an HU volume `[[[50]]]`, applying the
(350, 60) window and then the (80, 40) window gives a different result
than applying the (80, 40) window to the original volume. -/
theorem claim1_counterexample :
    (Dicom.set_window ⟨[], [], [[[50]]]⟩ 350 60).hu_images ≠
      (⟨[], [], [[[50]]]⟩ : Dicom).hu_images ∧
    (Dicom.set_window (Dicom.set_window ⟨[], [], [[[50]]]⟩ 350 60) 80 40).hu_images ≠
      (Dicom.set_window ⟨[], [], [[[50]]]⟩ 80 40).hu_images := by
  have e1 : (Dicom.set_window ⟨[], [], [[[50]]]⟩ 350 60).hu_images = [[[119]]] := by
    with_unfolding_all rfl
  have e2 : (Dicom.set_window (Dicom.set_window ⟨[], [], [[[50]]]⟩ 350 60) 80 40).hu_images
      = [[[255]]] := by
    with_unfolding_all rfl
  have e3 : (Dicom.set_window ⟨[], [], [[[50]]]⟩ 80 40).hu_images = [[[157]]] := by
    with_unfolding_all rfl
  rw [e1, e2, e3]
  exact ⟨by decide, by decide⟩

/-- C1 as amended: `set_window` leaves `data` and `pixel_data` unchanged
but overwrites `hu_images` with the windowed volume, so each call windows
the volume left by the previous call — the current `hu_images`, not a
preserved original HU volume. -/
theorem claim1_amended_overwrites (st : Dicom) (w1 c1 w2 c2 : ℚ) :
    (st.set_window w1 c1).data = st.data ∧
    (st.set_window w1 c1).pixel_data = st.pixel_data ∧
    (st.set_window w1 c1).hu_images =
      apply_windowing st.hu_images (setWindowMinVal c1 w1) (setWindowMaxVal c1 w1) ∧
    ((st.set_window w1 c1).set_window w2 c2).hu_images =
      apply_windowing
        (apply_windowing st.hu_images (setWindowMinVal c1 w1) (setWindowMaxVal c1 w1))
        (setWindowMinVal c2 w2) (setWindowMaxVal c2 w2) :=
  ⟨rfl, rfl, rfl, rfl⟩

/-- C5: the slice sequence produced by the directory branch of
`_load_data` is sorted by descending z-component of the image position:
z-components are non-increasing with slice index. -/
theorem claim5_sorted_descending (files : List Dataset) :
    (loadDataDir files).Pairwise (fun a b => b.imagePositionZ ≤ a.imagePositionZ) := by
  have ht : IsTotal Dataset (fun a b => b.imagePositionZ ≤ a.imagePositionZ) :=
    ⟨fun a b => le_total _ _⟩
  have htr : IsTrans Dataset (fun a b => b.imagePositionZ ≤ a.imagePositionZ) :=
    ⟨fun _ _ _ h1 h2 => le_trans h2 h1⟩
  exact List.sorted_insertionSort _ files

/-- C6: for any input volume and any window of positive width, every
element of the windowed output lies in `[0, 255]`. -/
theorem claim6_display_range (hu : List (List (List ℤ))) (center width : ℚ)
    (_hw : 0 < width) :
    ∀ plane ∈ apply_windowing hu (setWindowMinVal center width)
      (setWindowMaxVal center width),
      ∀ row ∈ plane, ∀ x ∈ row, 0 ≤ x ∧ x ≤ 255 := by
  intro plane hplane row hrow x hx
  unfold apply_windowing at hplane
  obtain ⟨p0, hp0, rfl⟩ := List.mem_map.mp hplane
  obtain ⟨r0, hr0, rfl⟩ := List.mem_map.mp hrow
  obtain ⟨v, hv, rfl⟩ := List.mem_map.mp hx
  exact applyWindowingElem_range _ _ v

/-- Witness for C6: the element obtained by windowing the singleton volume
`[[[5000]]]` with the (350, 60) window lies in `[0, 255]`. -/
theorem claim6_witness :
    0 ≤ applyWindowingElem (setWindowMinVal 60 350) (setWindowMaxVal 60 350) 5000 ∧
    applyWindowingElem (setWindowMinVal 60 350) (setWindowMaxVal 60 350) 5000 ≤ 255 :=
  claim6_display_range [[[5000]]] 60 350 (by decide)
    [[applyWindowingElem (setWindowMinVal 60 350) (setWindowMaxVal 60 350) 5000]]
    (List.mem_singleton.mpr rfl)
    [applyWindowingElem (setWindowMinVal 60 350) (setWindowMaxVal 60 350) 5000]
    (List.mem_singleton.mpr rfl)
    (applyWindowingElem (setWindowMinVal 60 350) (setWindowMaxVal 60 350) 5000)
    (List.mem_singleton.mpr rfl)

/-- C7: for a fixed window of positive width the per-element display map
is monotone: HU values `a ≤ b` display as values `display a ≤ display b`. -/
theorem claim7_monotone (center width : ℚ) (a b : ℤ) (hw : 0 < width)
    (hab : a ≤ b) :
    applyWindowingElem (setWindowMinVal center width) (setWindowMaxVal center width) a ≤
      applyWindowingElem (setWindowMinVal center width) (setWindowMaxVal center width) b := by
  unfold applyWindowingElem
  apply ratTowardZero_mono
  have hd : 0 < setWindowMaxVal center width - setWindowMinVal center width + windowEps := by
    unfold setWindowMaxVal setWindowMinVal windowEps
    linarith
  apply min_le_min _ le_rfl
  apply max_le_max _ le_rfl
  apply mul_le_mul_of_nonneg_right _ (by norm_num : (0:ℚ) ≤ 255)
  exact (div_le_div_iff_of_pos_right hd).mpr (sub_le_sub_right (by exact_mod_cast hab) _)

/-- Witness for C7 with the (350, 60) window at HU values `-200 ≤ 300`. -/
theorem claim7_witness :
    applyWindowingElem (setWindowMinVal 60 350) (setWindowMaxVal 60 350) (-200) ≤
      applyWindowingElem (setWindowMinVal 60 350) (setWindowMaxVal 60 350) 300 :=
  claim7_monotone 60 350 (-200) 300 (by decide) (by decide)

/-- Counterexample to C8: for `center = 60`, `width = 350` the code
computes `min_val = -114.5`, which matches neither claimed option
(`-115.5` without offset, `-115` with the half-unit bias): the code adds
`+0.5` to `center - width/2`, giving `-114.5`, not the claimed bounds. -/
theorem claim8_counterexample :
    setWindowMinVal 60 350 = -229 / 2 ∧
    ¬((setWindowMinVal 60 350 = -231 / 2 ∧ setWindowMaxVal 60 350 = 471 / 2) ∨
      (setWindowMinVal 60 350 = -115 ∧ setWindowMaxVal 60 350 = 236)) := by
  norm_num [setWindowMinVal, setWindowMaxVal]

/-- C8 as amended: for `center = 60`, `width = 350` the computed bounds
are `min_val = -114.5` and `max_val = 235.5` (the code biases both
`center - width/2` and `center + width/2` by `+0.5`); an HU value of
`-115` maps to display `0` and an HU value of `236` maps to display
`255`. -/
theorem claim8_amended_bounds :
    setWindowMinVal 60 350 = -229 / 2 ∧ setWindowMaxVal 60 350 = 471 / 2 ∧
    applyWindowingElem (setWindowMinVal 60 350) (setWindowMaxVal 60 350) (-115) = 0 ∧
    applyWindowingElem (setWindowMinVal 60 350) (setWindowMaxVal 60 350) 236 = 255 := by
  refine ⟨by norm_num [setWindowMinVal], by norm_num [setWindowMaxVal], ?_, ?_⟩
  · with_unfolding_all rfl
  · with_unfolding_all rfl

/-- C9: loading a directory with zero matching files fails with the
empty-series error raised when the empty slice list is stacked, and a
successful load never carries an empty series. -/
theorem claim9_empty_load_fails :
    dicomInitDir [] = Except.error LoadError.stackEmpty ∧
    ∀ files st, dicomInitDir files = Except.ok st → st.data ≠ [] := by
  constructor
  · rfl
  · intro files st h hnil
    unfold dicomInitDir at h
    cases hl : loadDataDir files with
    | nil =>
        rw [hl] at h
        simp [getPixelData] at h
    | cons d rest =>
        rw [hl] at h
        cases hg : getPixelData (d :: rest) with
        | error e =>
            rw [hg] at h
            exact Except.noConfusion h
        | ok pix =>
            rw [hg] at h
            have h2 : Except.ok (ε := LoadError)
                { data := d :: rest, pixel_data := pix,
                  hu_images := getHuImages (d :: rest) } = Except.ok st := h
            injection h2 with h3
            rw [← h3] at hnil
            simp at hnil

/-- Witness for C9: the empty directory errors, and a concrete singleton
load succeeds with a non-empty series. -/
theorem claim9_witness :
    dicomInitDir [] = Except.error LoadError.stackEmpty ∧
    (⟨[⟨[[0]], 1, 0, 0⟩], [[[0]]], [[[0]]]⟩ : Dicom).data ≠ [] :=
  ⟨claim9_empty_load_fails.1,
    claim9_empty_load_fails.2 [⟨[[0]], 1, 0, 0⟩] _ (by with_unfolding_all rfl)⟩

end Radiverse
